import Mathlib

/-!
Verification of the snippet parsing / Markdown rendering core of `snipmd`
(src/main.py), via a shallow embedding of the Python code into Lean.

Python values flowing through the parser are dynamically typed JSON trees;
they are embedded as the inductive `JValue` below (`JValue.null` plays the
role of Python `None`).  The parser (`VSCodeSnippet.create`,
`SnippetProcessor.parse_snippet_json`) is embedded over `JValue`; the
renderer (`VSCodeSnippet.to_markdown`, `SnippetProcessor.write_markdown`)
is embedded over the typed snippet shape declared by the `VSCodeSnippet`
dataclass (str / list[str] / str | None fields), which is the domain the
rendering claims quantify over.
-/

/-- A deserialized JSON-like value, the dynamic data the Python code
manipulates.  `null` embeds Python `None`; `obj` keeps the key order of the
source document, as Python dicts do. -/
inductive JValue where
  | null : JValue
  | bool : Bool → JValue
  | num : Int → JValue
  | str : String → JValue
  | arr : List JValue → JValue
  | obj : List (String × JValue) → JValue

/-- Embeds Python `d.get(key)` on a dict: the value stored at `key`, or
`none` when the key is missing.  Keys of a Python dict are unique, so
taking the first match is exact. -/
def pyGet (fields : List (String × JValue)) (key : String) : Option JValue :=
  (fields.find? (fun p => p.1 == key)).map Prod.snd

/-- Embeds `isinstance(v, dict)`. -/
def isDict : JValue → Bool
  | .obj _ => true
  | _ => false

/-- Embeds `isinstance(v, str)`. -/
def isStr : JValue → Bool
  | .str _ => true
  | _ => false

/-- Embeds `isinstance(v, list)`. -/
def isList : JValue → Bool
  | .arr _ => true
  | _ => false

/-- The `SnippetError` exceptions the parser can raise, by cause and
(for the per-entry causes) the offending snippet name.  `main.py` raises
them at lines 116, 63 and 74 respectively. -/
inductive SnippetError where
  | invalidDocumentShape : SnippetError
  | invalidSnippetShape : String → SnippetError
  | invalidSnippetBody : String → SnippetError
  deriving DecidableEq

/-- The exact exception message built by the f-strings in `main.py`. -/
def SnippetError.message : SnippetError → String
  | .invalidDocumentShape => "Invalid JSON structure: expected object at root level"
  | .invalidSnippetShape name => "Invalid snippet data for '" ++ name ++ "': expected object"
  | .invalidSnippetBody name => "Invalid body for snippet '" ++ name ++ "': expected string or array"

/-- The snippet object as `VSCodeSnippet.create` actually builds it: since
Python does not type-check the `prefix`, `body` elements or `description`
values, the fields hold raw `JValue`s.  `pfx` embeds the Python attribute
`prefix` (a Lean keyword); `description = JValue.null` embeds
`description is None`, i.e. the key was absent (or explicitly null). -/
structure RawSnippet where
  name : String
  pfx : JValue
  body : List JValue
  description : JValue

/-- Embeds `VSCodeSnippet.create` (main.py lines 60-83): reject a
non-dict entry, default `prefix` to `""` and `body` to `[]`, wrap a bare
string body into a one-element list, reject any body that is neither a
string nor a list, and carry `description` through unchanged. -/
def VSCodeSnippet.create (name : String) (snippet_data : JValue) :
    Except SnippetError RawSnippet :=
  match snippet_data with
  | .obj fields =>
    let pfx := (pyGet fields "prefix").getD (.str "")
    let body := (pyGet fields "body").getD (.arr [])
    let description := (pyGet fields "description").getD .null
    match body with
    | .str s => .ok ⟨name, pfx, [.str s], description⟩
    | .arr xs => .ok ⟨name, pfx, xs, description⟩
    | _ => .error (.invalidSnippetBody name)
  | _ => .error (.invalidSnippetShape name)

/-- The entry loop of `parse_snippet_json` (main.py lines 120-127): build
the snippet list left to right, aborting on the first entry whose
`create` raises.  (The `except KeyError` clause in the source is dead:
`dict.get` never raises, so a `SnippetError` from `create` propagates
unchanged.) -/
def parseEntries : List (String × JValue) → Except SnippetError (List RawSnippet)
  | [] => .ok []
  | (name, snippet_data) :: rest =>
    match VSCodeSnippet.create name snippet_data with
    | .ok snip =>
      match parseEntries rest with
      | .ok snips => .ok (snip :: snips)
      | .error e => .error e
    | .error e => .error e

/-- Embeds `SnippetProcessor.parse_snippet_json` (main.py lines 98-129).
The method reads no processor state, so it is embedded as a plain
function of the JSON data. -/
def parse_snippet_json (json_data : JValue) : Except SnippetError (List RawSnippet) :=
  match json_data with
  | .obj entries => parseEntries entries
  | _ => .error .invalidDocumentShape

/-- Success condition of `VSCodeSnippet.create`: the entry value is a
dict whose `body` field, when present, is a string or a list.  (Proved
equivalent to `create` returning `.ok` in `create_ok_iff` below.) -/
def validFields : JValue → Bool
  | .obj fields =>
    match pyGet fields "body" with
    | none => true
    | some (.str _) => true
    | some (.arr _) => true
    | some _ => false
  | _ => false

/-- The snippet entity as declared by the `VSCodeSnippet` dataclass
(main.py lines 38-43): `name: str`, `prefix: str`, `body: list[str]`,
`description: str | None`.  The rendering methods are embedded over this
typed shape, which is the domain the rendering claims quantify over.
`pfx` embeds the Python field `prefix` (a Lean keyword). -/
structure VSCodeSnippet where
  name : String
  pfx : String
  body : List String
  description : Option String
  deriving DecidableEq

/-- The `header` f-string of `to_markdown` (main.py line 46).  Note the
space after the newline, before `**Prefix**`. -/
def VSCodeSnippet.header (s : VSCodeSnippet) : String :=
  "### " ++ s.name ++ "\n **Prefix**: " ++ s.pfx ++ "\n"

/-- The `description_section` of `to_markdown` (main.py lines 48-50):
`"n/a"` unless `self.description` is truthy, i.e. a present, non-empty
string. -/
def VSCodeSnippet.description_section (s : VSCodeSnippet) : String :=
  match s.description with
  | some d => if d = "" then "n/a" else "\n\n**Description**: " ++ d
  | none => "n/a"

/-- The `body_text` of `to_markdown` (main.py line 52):
`"\n".join(self.body)`. -/
def VSCodeSnippet.body_text (s : VSCodeSnippet) : String :=
  String.intercalate "\n" s.body

/-- The `code_block` f-string of `to_markdown` (main.py line 53). -/
def VSCodeSnippet.code_block (s : VSCodeSnippet) (language : String) : String :=
  "\n\n#### Template\n\n```" ++ language ++ "\n" ++ s.body_text ++ "\n```"

/-- Embeds `VSCodeSnippet.to_markdown` (main.py lines 45-55). -/
def VSCodeSnippet.to_markdown (s : VSCodeSnippet) (language : String) : String :=
  s.header ++ s.description_section ++ s.code_block language

/-- The processor state read by `write_markdown` (main.py lines 86-96):
the snippet name and the optional language flag. -/
structure SnippetProcessor where
  snippet_name : String
  snippet_lang : Option String

/-- Embeds the Python expression `self.snippet_lang or self.snippet_name`
(main.py line 180): the language flag when it is a truthy (present,
non-empty) string, else the snippet name. -/
def SnippetProcessor.resolved_language (p : SnippetProcessor) : String :=
  match p.snippet_lang with
  | some l => if l.isEmpty then p.snippet_name else l
  | none => p.snippet_name

/-- Embeds Python `sep.join(sections)` (main.py line 184). -/
def joinSep (sep : String) : List String → String
  | [] => ""
  | [x] => x
  | x :: xs => x ++ sep ++ joinSep sep xs

/-- Embeds `SnippetProcessor.write_markdown` (main.py lines 161-184):
the fixed fallback document on an empty list, otherwise the rendered
sections joined with `"\n\n---\n"`. -/
def SnippetProcessor.write_markdown (p : SnippetProcessor)
    (snippets : List VSCodeSnippet) : String :=
  if snippets.isEmpty then
    "# No Snippets Found\n\nThe provided input contains no valid snippets."
  else
    joinSep "\n\n---\n"
      (snippets.map (fun s => s.to_markdown p.resolved_language))

/-- Number of character positions of `hay` at which the string `needle`
occurs (used to state "contains the separator exactly once"). -/
def substrCount (hay needle : String) : Nat :=
  (List.range (hay.data.length + 1)).countP
    (fun i => needle.data.isPrefixOf (hay.data.drop i))

/-- Splits a character list at every occurrence of `c` (the separator
characters are dropped). -/
def splitOnChar (c : Char) (s : List Char) : List (List Char) :=
  s.foldr
    (fun ch acc =>
      if ch = c then [] :: acc
      else
        match acc with
        | [] => [[ch]]
        | l :: ls => (ch :: l) :: ls)
    [[]]

/-- The complete lines of a string: the segments between newline
characters (used to state "contains X as a complete line"). -/
def linesOf (s : String) : List String :=
  (splitOnChar (Char.ofNat 10) s.data).map (fun l => String.mk l)

/-- A value passes `create`'s checks exactly when `validFields` holds of it. -/
theorem create_ok_iff (name : String) (v : JValue) :
    (∃ r, VSCodeSnippet.create name v = .ok r) ↔ validFields v = true := by
  cases v with
  | obj fields =>
    cases hb : pyGet fields "body" with
    | none => simp [VSCodeSnippet.create, validFields, hb]
    | some b => cases b <;> simp [VSCodeSnippet.create, validFields, hb]
  | _ => simp [VSCodeSnippet.create, validFields]

/-- When `create` rejects a value, the error names the offending snippet. -/
theorem create_error_of_invalid (name : String) (v : JValue)
    (h : validFields v = false) :
    ∃ e, VSCodeSnippet.create name v = .error e ∧
      (e = .invalidSnippetShape name ∨ e = .invalidSnippetBody name) := by
  cases v with
  | obj fields =>
    cases hb : pyGet fields "body" with
    | none => simp [validFields, hb] at h
    | some b => cases b <;> simp [VSCodeSnippet.create, validFields, hb] at h ⊢
  | _ => simp [VSCodeSnippet.create]

/-- The entry loop succeeds exactly when every entry value is valid. -/
theorem parseEntries_ok_iff (M : List (String × JValue)) :
    (∃ l, parseEntries M = .ok l) ↔ ∀ p ∈ M, validFields p.2 = true := by
  induction M with
  | nil => simp [parseEntries]
  | cons p rest ih =>
    obtain ⟨name, data⟩ := p
    constructor
    · rintro ⟨l, hl⟩
      cases hc : VSCodeSnippet.create name data with
      | error e => simp [parseEntries, hc] at hl
      | ok r =>
        cases hp : parseEntries rest with
        | error e => simp [parseEntries, hc, hp] at hl
        | ok l2 =>
          intro q hq
          rcases List.mem_cons.mp hq with hq | hq
          · subst hq
            exact (create_ok_iff name data).mp ⟨r, hc⟩
          · exact (ih.mp ⟨l2, hp⟩) q hq
    · intro h
      obtain ⟨r, hc⟩ := (create_ok_iff name data).mpr (h (name, data) (by simp))
      obtain ⟨l2, hp⟩ := ih.mpr (fun q hq => h q (List.mem_cons_of_mem _ hq))
      exact ⟨r :: l2, by simp [parseEntries, hc, hp]⟩

/-- An `Except` is an error exactly when it is not a success. -/
theorem except_error_iff_not_ok {ε α : Type} (x : Except ε α) :
    (∃ e, x = .error e) ↔ ¬ ∃ a, x = .ok a := by
  cases x <;> simp

/-- On an all-valid entry list the loop returns one snippet per entry,
in order, each named after its key. -/
theorem parseEntries_ok_of_valid (M : List (String × JValue))
    (h : ∀ p ∈ M, validFields p.2 = true) :
    ∃ l, parseEntries M = .ok l ∧ l.map RawSnippet.name = M.map Prod.fst := by
  induction M with
  | nil => exact ⟨[], rfl, rfl⟩
  | cons p rest ih =>
    obtain ⟨name, data⟩ := p
    obtain ⟨r, hc⟩ :=
      (create_ok_iff name data).mpr (h (name, data) (by simp))
    obtain ⟨l2, hp, hmap⟩ := ih (fun q hq => h q (List.mem_cons_of_mem _ hq))
    have hrname : r.name = name := by
      cases data with
      | obj fields =>
        cases hb : pyGet fields "body" with
        | none =>
          simp [VSCodeSnippet.create, hb] at hc
          simp [← hc]
        | some b =>
          cases b <;> simp [VSCodeSnippet.create, hb] at hc <;> simp [← hc]
      | _ => simp [VSCodeSnippet.create] at hc
    exact ⟨r :: l2, by simp [parseEntries, hc, hp], by simp [hrname, hmap]⟩

/-- On an entry list with an invalid entry the loop fails, with an error
constructor carrying that entry's name. -/
theorem parseEntries_error_of_invalid (M : List (String × JValue))
    (h : ∃ p ∈ M, validFields p.2 = false) :
    ∃ p ∈ M, validFields p.2 = false ∧
      ∃ e, parseEntries M = .error e ∧
        (e = .invalidSnippetShape p.1 ∨ e = .invalidSnippetBody p.1) := by
  induction M with
  | nil => simp at h
  | cons p rest ih =>
    obtain ⟨name, data⟩ := p
    by_cases hv : validFields data = false
    · obtain ⟨e, he, hor⟩ := create_error_of_invalid name data hv
      exact ⟨(name, data), by simp, hv, e, by simp [parseEntries, he], hor⟩
    · have hvt : validFields data = true := by
        cases hvd : validFields data
        · exact absurd hvd hv
        · rfl
      obtain ⟨r, hc⟩ := (create_ok_iff name data).mpr hvt
      have hrest : ∃ q ∈ rest, validFields q.2 = false := by
        rcases h with ⟨q, hq, hqv⟩
        rcases List.mem_cons.mp hq with hq | hq
        · subst hq; exact absurd hqv hv
        · exact ⟨q, hq, hqv⟩
      obtain ⟨q, hq, hqv, e, he, hor⟩ := ih hrest
      refine ⟨q, List.mem_cons_of_mem _ hq, hqv, e, ?_, hor⟩
      simp [parseEntries, hc, he]

/-- C1: for every mapping whose entry values are all valid raw fields,
`parse_snippet_json` returns a list with one snippet per entry, in the
mapping's iteration order, the i-th snippet named after the i-th key. -/
theorem parse_snippet_json_preserves_names_and_order
    (M : List (String × JValue)) (h : ∀ p ∈ M, validFields p.2 = true) :
    ∃ l, parse_snippet_json (.obj M) = .ok l ∧ l.length = M.length ∧
      l.map RawSnippet.name = M.map Prod.fst := by
  obtain ⟨l, hl, hmap⟩ := parseEntries_ok_of_valid M h
  refine ⟨l, hl, ?_, hmap⟩
  have := congrArg List.length hmap
  simpa using this

/-- Witness for C1 at a concrete two-entry mapping. -/
theorem parse_snippet_json_preserves_names_and_order_witness :
    ∃ l, parse_snippet_json
        (.obj [("a", JValue.obj [("body", JValue.str "x")]),
               ("b", JValue.obj [])]) = .ok l ∧
      l.length = 2 ∧ l.map RawSnippet.name = ["a", "b"] := by
  have := parse_snippet_json_preserves_names_and_order
    [("a", JValue.obj [("body", JValue.str "x")]), ("b", JValue.obj [])]
    (by decide)
  simpa using this

/-- C2: `create` normalizes a single-string body to a one-element list,
keeps a list body unchanged, and rejects any other present body value
with the invalid-body error. -/
theorem create_normalizes_body (name : String)
    (fields : List (String × JValue)) :
    (∀ s, pyGet fields "body" = some (.str s) →
      ∃ r, VSCodeSnippet.create name (.obj fields) = .ok r ∧
        r.body = [JValue.str s]) ∧
    (∀ xs, pyGet fields "body" = some (.arr xs) →
      ∃ r, VSCodeSnippet.create name (.obj fields) = .ok r ∧ r.body = xs) ∧
    (∀ b, pyGet fields "body" = some b → isStr b = false → isList b = false →
      VSCodeSnippet.create name (.obj fields) =
        .error (.invalidSnippetBody name)) := by
  refine ⟨?_, ?_, ?_⟩
  · intro s hs
    exact ⟨⟨name, (pyGet fields "prefix").getD (.str ""), [JValue.str s],
        (pyGet fields "description").getD .null⟩,
      by simp [VSCodeSnippet.create, hs], rfl⟩
  · intro xs hxs
    exact ⟨⟨name, (pyGet fields "prefix").getD (.str ""), xs,
        (pyGet fields "description").getD .null⟩,
      by simp [VSCodeSnippet.create, hxs], rfl⟩
  · intro b hb hstr hlist
    cases b <;> simp_all [VSCodeSnippet.create, isStr, isList]

/-- Witness for C2: a bare string body `"foo"` becomes `["foo"]`. -/
theorem create_normalizes_body_witness :
    ∃ r, VSCodeSnippet.create "x" (.obj [("body", JValue.str "foo")]) = .ok r ∧
      r.body = [JValue.str "foo"] :=
  (create_normalizes_body "x" [("body", JValue.str "foo")]).1 "foo" rfl

/-- C3: `parse_snippet_json` fails exactly when the root is not a dict,
or some entry value is not a dict, or some entry has a present body field
that is neither a string nor a list; on every other input it succeeds. -/
theorem parse_snippet_json_error_iff (j : JValue) :
    (∃ e, parse_snippet_json j = .error e) ↔
      (isDict j = false ∨
        ∃ M, j = .obj M ∧ ∃ p ∈ M,
          (isDict p.2 = false ∨
            ∃ f, p.2 = .obj f ∧ ∃ b, pyGet f "body" = some b ∧
              isStr b = false ∧ isList b = false)) := by
  have hvf : ∀ v : JValue, validFields v = false ↔
      (isDict v = false ∨
        ∃ f, v = .obj f ∧ ∃ b, pyGet f "body" = some b ∧
          isStr b = false ∧ isList b = false) := by
    intro v
    cases v with
    | obj fields =>
      cases hb : pyGet fields "body" with
      | none => simp [validFields, isDict, hb]
      | some b => cases b <;> simp [validFields, isDict, isStr, isList, hb]
    | _ => simp [validFields, isDict]
  cases j with
  | obj M =>
    have h1 : (∃ e, parse_snippet_json (.obj M) = .error e) ↔
        ¬ ∀ p ∈ M, validFields p.2 = true := by
      rw [show parse_snippet_json (.obj M) = parseEntries M from rfl]
      rw [except_error_iff_not_ok, parseEntries_ok_iff]
    rw [h1]
    push_neg
    constructor
    · rintro ⟨p, hp, hpv⟩
      exact Or.inr ⟨M, rfl, p, hp, (hvf p.2).mp (by simpa using hpv)⟩
    · rintro (hd | ⟨M2, hM2, p, hp, hpcond⟩)
      · simp [isDict] at hd
      · cases hM2
        exact ⟨p, hp, by simp [(hvf p.2).mpr hpcond]⟩
  | _ =>
    simp [parse_snippet_json, isDict]

/-- C4: a mapping with an invalid entry makes the whole parse fail: no
snippet list is returned, and the error message spells out the offending
entry's name. -/
theorem parse_snippet_json_all_or_nothing (M : List (String × JValue))
    (h : ∃ p ∈ M, validFields p.2 = false) :
    (∀ l, parse_snippet_json (.obj M) ≠ .ok l) ∧
    ∃ p ∈ M, validFields p.2 = false ∧
      ∃ e, parse_snippet_json (.obj M) = .error e ∧
        ∃ pre post, e.message = pre ++ p.1 ++ post := by
  obtain ⟨p, hp, hpv, e, he, hor⟩ := parseEntries_error_of_invalid M h
  have hpe : parse_snippet_json (.obj M) = .error e := he
  constructor
  · intro l hl
    rw [hpe] at hl
    exact Except.noConfusion hl
  · refine ⟨p, hp, hpv, e, hpe, ?_⟩
    rcases hor with hor | hor <;> subst hor
    · exact ⟨"Invalid snippet data for '", "': expected object", rfl⟩
    · exact ⟨"Invalid body for snippet '", "': expected string or array", rfl⟩

/-- Witness for C4 at the spec's example: entry `"b"` is a bare string,
so the parse fails and the message names `"b"`. -/
theorem parse_snippet_json_all_or_nothing_witness :
    (∀ l, parse_snippet_json
        (.obj [("a", JValue.obj [("body", JValue.arr [JValue.str "x"])]),
               ("b", JValue.str "not-a-dict")]) ≠ .ok l) ∧
    ∃ p ∈ [("a", JValue.obj [("body", JValue.arr [JValue.str "x"])]),
           ("b", JValue.str "not-a-dict")],
      validFields p.2 = false ∧
      ∃ e, parse_snippet_json
          (.obj [("a", JValue.obj [("body", JValue.arr [JValue.str "x"])]),
                 ("b", JValue.str "not-a-dict")]) = .error e ∧
        ∃ pre post, e.message = pre ++ p.1 ++ post :=
  parse_snippet_json_all_or_nothing
    [("a", JValue.obj [("body", JValue.arr [JValue.str "x"])]),
     ("b", JValue.str "not-a-dict")]
    (by decide)

/-- C10: a raw-fields dict with no `body` key is accepted and yields an
empty body list; in particular the empty dict yields prefix `""`, body
`[]` and an absent description. -/
theorem create_missing_body_defaults (name : String)
    (fields : List (String × JValue)) (h : pyGet fields "body" = none) :
    (∃ r, VSCodeSnippet.create name (.obj fields) = .ok r ∧ r.body = []) ∧
    VSCodeSnippet.create name (.obj []) =
      .ok ⟨name, JValue.str "", [], JValue.null⟩ := by
  constructor
  · exact ⟨⟨name, (pyGet fields "prefix").getD (.str ""), [],
        (pyGet fields "description").getD .null⟩,
      by simp [VSCodeSnippet.create, h], rfl⟩
  · rfl

/-- Witness for C10 at a dict holding only a `prefix` key. -/
theorem create_missing_body_defaults_witness :
    (∃ r, VSCodeSnippet.create "x"
        (.obj [("prefix", JValue.str "p")]) = .ok r ∧ r.body = []) ∧
    VSCodeSnippet.create "x" (.obj []) =
      .ok ⟨"x", JValue.str "", [], JValue.null⟩ :=
  create_missing_body_defaults "x" [("prefix", JValue.str "p")] rfl

/-- C5: the empty snippet list renders to the fixed fallback document. -/
theorem write_markdown_empty (p : SnippetProcessor) :
    p.write_markdown [] =
      "# No Snippets Found\n\nThe provided input contains no valid snippets." :=
  rfl

/-- Appending on the left distributes over the separator fold. -/
theorem foldl_sep_append (sep : String) (ss : List String) :
    ∀ a b : String,
      ss.foldl (fun acc s => acc ++ sep ++ s) (a ++ b) =
        a ++ ss.foldl (fun acc s => acc ++ sep ++ s) b := by
  induction ss with
  | nil => intro a b; rfl
  | cons s ss ih =>
    intro a b
    show ss.foldl _ ((a ++ b) ++ sep ++ s) = a ++ ss.foldl _ ((b ++ sep ++ s))
    rw [show (a ++ b) ++ sep ++ s = a ++ (b ++ sep ++ s) by
      simp [String.append_assoc]]
    exact ih a (b ++ sep ++ s)

/-- `joinSep` on a non-empty list is the left fold that inserts one
separator before each later element. -/
theorem joinSep_eq_foldl (sep : String) (x : String) (xs : List String) :
    joinSep sep (x :: xs) =
      xs.foldl (fun acc s => acc ++ sep ++ s) x := by
  induction xs generalizing x with
  | nil => rfl
  | cons y ys ih =>
    show x ++ sep ++ joinSep sep (y :: ys) = ys.foldl _ (x ++ sep ++ y)
    rw [ih y]
    exact (foldl_sep_append sep ys (x ++ sep) y).symm

/-- C6 (amended): a non-empty snippet list renders to the per-snippet
sections joined with one `"\n\n---\n"` separator before each later
section and none at the ends; a two-snippet document is the first
section, the separator, then the second section. -/
theorem write_markdown_joins_sections (p : SnippetProcessor)
    (x : VSCodeSnippet) (xs : List VSCodeSnippet) (a b : VSCodeSnippet) :
    p.write_markdown (x :: xs) =
      (xs.map (fun s => s.to_markdown p.resolved_language)).foldl
        (fun acc sec => acc ++ "\n\n---\n" ++ sec)
        (x.to_markdown p.resolved_language) ∧
    p.write_markdown [a, b] =
      a.to_markdown p.resolved_language ++ "\n\n---\n" ++
        b.to_markdown p.resolved_language := by
  constructor
  · rw [show p.write_markdown (x :: xs) =
        joinSep "\n\n---\n"
          ((x :: xs).map (fun s => s.to_markdown p.resolved_language))
      from rfl]
    rw [List.map_cons, joinSep_eq_foldl]
  · rfl

set_option maxRecDepth 100000

/-- Counterexample for C6: when a snippet body itself contains a `---`
line, the rendered two-snippet document contains the separator string
more than once (here three times), so "contains the separator exactly
once" fails. -/
theorem write_markdown_separator_count_counterexample :
    substrCount
      (SnippetProcessor.write_markdown ⟨"x", some "python"⟩
        [⟨"a", "", ["", "---"], none⟩, ⟨"a", "", ["", "---"], none⟩])
      "\n\n---\n" ≠ 1 := by
  decide

/-- Counterexample for C7: the rendered document has no complete line
`**Prefix**: a!` — the source emits a space before `**Prefix**`, so the
complete line is ` **Prefix**: a!`. -/
theorem to_markdown_prefix_line_counterexample :
    ¬ ("**Prefix**: a!" ∈ linesOf
        (SnippetProcessor.write_markdown ⟨"w", some "python"⟩
          [⟨"a", "a!", ["line1", "line2"], none⟩])) := by
  decide

/-- C7 (amended): rendering the single snippet `a` with tag `python`
yields a document with complete lines `### a`, ` **Prefix**: a!` (note
the leading space) and `n/a`, and containing the fenced block
` ```python ` with content `line1\nline2`. -/
theorem to_markdown_concrete_rendering :
    ("### a" ∈ linesOf (SnippetProcessor.write_markdown ⟨"w", some "python"⟩
        [⟨"a", "a!", ["line1", "line2"], none⟩])) ∧
    (" **Prefix**: a!" ∈ linesOf (SnippetProcessor.write_markdown
        ⟨"w", some "python"⟩ [⟨"a", "a!", ["line1", "line2"], none⟩])) ∧
    ("n/a" ∈ linesOf (SnippetProcessor.write_markdown ⟨"w", some "python"⟩
        [⟨"a", "a!", ["line1", "line2"], none⟩])) ∧
    0 < substrCount
        (SnippetProcessor.write_markdown ⟨"w", some "python"⟩
          [⟨"a", "a!", ["line1", "line2"], none⟩])
        "```python\nline1\nline2\n```" := by
  decide

/-- C8: the description section follows the truthiness of the
description value: an absent or empty description renders as `n/a`, a
non-empty description `d` renders as `\n\n**Description**: ` ++ `d`. -/
theorem to_markdown_description_truthiness (s : VSCodeSnippet)
    (lang : String) :
    ((s.description = none ∨ s.description = some "") →
      s.to_markdown lang = s.header ++ "n/a" ++ s.code_block lang) ∧
    (∀ d, s.description = some d → d ≠ "" →
      s.to_markdown lang =
        s.header ++ ("\n\n**Description**: " ++ d) ++ s.code_block lang) := by
  constructor
  · rintro (h | h) <;>
      simp [VSCodeSnippet.to_markdown, VSCodeSnippet.description_section, h]
  · intro d hd hne
    simp [VSCodeSnippet.to_markdown, VSCodeSnippet.description_section, hd,
      hne]

/-- Witness for C8 at a present-but-empty description: it renders `n/a`. -/
theorem to_markdown_description_truthiness_witness :
    VSCodeSnippet.to_markdown ⟨"a", "p", ["x"], some ""⟩ "t" =
      VSCodeSnippet.header ⟨"a", "p", ["x"], some ""⟩ ++ "n/a" ++
        VSCodeSnippet.code_block ⟨"a", "p", ["x"], some ""⟩ "t" :=
  (to_markdown_description_truthiness ⟨"a", "p", ["x"], some ""⟩ "t").1
    (Or.inr rfl)

/-- C9: rendering is total over the typed snippet shape — every snippet
list and tag yields a string, and the empty-input fallback is an
ordinary successful return, not an error. -/
theorem rendering_total (p : SnippetProcessor)
    (snippets : List VSCodeSnippet) (tag : String) :
    (∃ out : String, p.write_markdown snippets = out) ∧
    (∀ s ∈ snippets, ∃ sec : String, s.to_markdown tag = sec) ∧
    (snippets = [] → p.write_markdown snippets =
      "# No Snippets Found\n\nThe provided input contains no valid snippets.") := by
  refine ⟨⟨_, rfl⟩, fun s _ => ⟨_, rfl⟩, ?_⟩
  rintro rfl
  rfl

/-- Witness for C9 at the empty list. -/
theorem rendering_total_witness :
    SnippetProcessor.write_markdown ⟨"x", none⟩ [] =
      "# No Snippets Found\n\nThe provided input contains no valid snippets." :=
  (rendering_total ⟨"x", none⟩ [] "t").2.2 rfl
